import Mathlib

/-!
Shallow embedding of the struct-level `model` attribute parsing pipeline of
`wither_derive` (src/wither_derive/src/model_struct.rs) and proofs of the
specification's claims about it.

Rust panics are modelled as `Except.error` with a dedicated error constructor
per panic site; the iterator folds are modelled by `List.foldlM` over `Except`.
-/

namespace Wither

/-- A literal as classified by `syn::Lit`: the source only distinguishes
string literals (`syn::Lit::Str`) from every other literal kind. -/
inductive Lit where
  | str (val : String)
  | int (val : Int)
  | boolean (val : Bool)
  | other
deriving Repr, DecidableEq

/-- Whether a literal is a string literal (`syn::Lit::Str`). -/
def Lit.isStrLit : Lit → Bool
  | Lit.str _ => true
  | _ => false

mutual
/-- `syn::Meta`: a word `ident`, a list `ident(...)`, or a pair `ident = lit`. -/
inductive Meta where
  | word (ident : String)
  | list (ident : String) (nested : List NestedMeta)
  | nameValue (ident : String) (lit : Lit)

/-- `syn::NestedMeta`: a nested meta item or a bare literal. -/
inductive NestedMeta where
  | meta (m : Meta)
  | literal (l : Lit)
end

/-- `syn::Meta::name()`: the identifier of the meta item. -/
def Meta.name : Meta → String
  | Meta.word i => i
  | Meta.list i _ => i
  | Meta.nameValue i _ => i

/-- The distinct fatal errors (panic sites) of `model_struct.rs`:
`msg::MODEL_ATTR_FORM` (non-list `model` attr, or a bare literal entry),
`msg::MODEL_STRUCT_ATTRS` (a nested-list entry), the zero-length
`collection_name` panic, the unrecognized-attribute panic (which names the
offending identifier in its message), and the only-string-literals panic. -/
inductive ModelError where
  | modelAttrForm
  | modelStructAttrs
  | zeroLengthCollectionName
  | unrecognizedStructAttr (ident : String)
  | onlyStringLiterals
deriving Repr, DecidableEq

/-- `MetaModelStructData`: the accumulated struct-level configuration. -/
structure MetaModelStructData where
  collection_name : String
  skip_serde_checks : Bool
deriving Repr, DecidableEq

/-- `MetaModelStructData::default()`: empty collection name, checks on. -/
def MetaModelStructData.mkDefault : MetaModelStructData :=
  { collection_name := "", skip_serde_checks := false }

/-- `handle_kv_attr`: handle an `ident = lit` entry of a `model` attr. -/
def handle_kv_attr (ident : String) (lit : Lit) (struct_data : MetaModelStructData) :
    Except ModelError MetaModelStructData :=
  match lit with
  | Lit.str val =>
    if ident = "collection_name" then
      let updated := { struct_data with collection_name := val }
      if updated.collection_name.length < 1 then
        Except.error ModelError.zeroLengthCollectionName
      else
        Except.ok updated
    else Except.error (ModelError.unrecognizedStructAttr ident)
  | _ => Except.error ModelError.onlyStringLiterals

/-- `handle_ident_attr`: handle a bare-word entry of a `model` attr. -/
def handle_ident_attr (ident : String) (struct_data : MetaModelStructData) :
    Except ModelError MetaModelStructData :=
  if ident = "skip_serde_checks" then
    Except.ok { struct_data with skip_serde_checks := true }
  else Except.error (ModelError.unrecognizedStructAttr ident)

/-- One entry of a list-shaped `model` attr, as dispatched inside
`unpack_model_attr`: the `filter_map` panics on bare literals with
`msg::MODEL_ATTR_FORM`, the `for_each` dispatches words and name-value pairs
and panics on nested lists with `msg::MODEL_STRUCT_ATTRS`. -/
def handle_nested (struct_data : MetaModelStructData) (nm : NestedMeta) :
    Except ModelError MetaModelStructData :=
  match nm with
  | NestedMeta.meta m =>
    match m with
    | Meta.word ident => handle_ident_attr ident struct_data
    | Meta.nameValue ident lit => handle_kv_attr ident lit struct_data
    | Meta.list _ _ => Except.error ModelError.modelStructAttrs
  | NestedMeta.literal _ => Except.error ModelError.modelAttrForm

/-- `unpack_model_attr`: a `model` attr must be a list; its entries are
processed left to right into the accumulator. -/
def unpack_model_attr (meta : Meta) (struct_data : MetaModelStructData) :
    Except ModelError MetaModelStructData :=
  match meta with
  | Meta.list _ nested => nested.foldlM handle_nested struct_data
  | _ => Except.error ModelError.modelAttrForm

/-- One step of the fold in `MetaModelStructData::new`: an attribute whose
`interpret_meta()` fails (`none`) is skipped, as is any attribute whose name
is not `model`; `model` attributes are unpacked into the accumulator. -/
def fold_step (acc : MetaModelStructData) (attr : Option Meta) :
    Except ModelError MetaModelStructData :=
  match attr with
  | none => Except.ok acc
  | some meta =>
    if meta.name = "model" then unpack_model_attr meta acc else Except.ok acc

/-- One character step of the table-case conversion: an underscore is
inserted before each uppercase character except at the start, and the
character is lowered. -/
def ttc_step (acc : List Char) (c : Char) : List Char :=
  if c.isUpper then
    if acc.isEmpty then acc ++ [c.toLower] else acc ++ ['_', c.toLower]
  else acc ++ [c]

/-- Modelled from the spec: `Inflector::to_table_case` from the external
`inflector` crate (not part of this repository) — "convert to a lowercase,
underscore-separated (snake/table) form". -/
def to_table_case (s : String) : String :=
  String.mk (s.data.foldl ttc_step [])

/-- Whether `suffix` is a suffix of the characters of `s`. -/
def strEndsWith (s : String) (suffix : List Char) : Bool :=
  List.isSuffixOf suffix s.data

/-- Modelled from the spec: `Inflector::to_plural` from the external
`inflector` crate (not part of this repository) — "pluralize it using
standard English pluralization rules (trailing s/es/y→ies etc.)". -/
def to_plural (s : String) : String :=
  if strEndsWith s ['y'] then String.mk s.data.dropLast ++ "ies"
  else if strEndsWith s ['s'] then s
  else if strEndsWith s ['s', 'h'] || strEndsWith s ['c', 'h'] || strEndsWith s ['x'] then
    s ++ "es"
  else s ++ "s"

/-- `MetaModelStructData::new`: fold all attributes into a fresh default
accumulator, then apply the defaulting pass for `collection_name`. -/
def MetaModelStructData.new (attrs : List (Option Meta)) (target_ident : String) :
    Except ModelError MetaModelStructData :=
  match attrs.foldlM fold_step MetaModelStructData.mkDefault with
  | Except.error e => Except.error e
  | Except.ok data =>
    if data.collection_name.length = 0 then
      Except.ok { data with collection_name := to_plural (to_table_case target_ident) }
    else
      Except.ok data

/-! ### Helper predicates -/

/-- Whether a nested entry is a `collection_name = ...` name-value entry. -/
def isCollNameEntry : NestedMeta → Bool
  | NestedMeta.meta (Meta.nameValue i _) => i == "collection_name"
  | _ => false

/-- Whether a nested entry is the bare word `skip_serde_checks`. -/
def isSkipEntry : NestedMeta → Bool
  | NestedMeta.meta (Meta.word i) => i == "skip_serde_checks"
  | _ => false

/-- Whether an attribute is a `model` list containing a `collection_name` entry. -/
def attrSetsCollName : Option Meta → Bool
  | some (Meta.list i ns) => i == "model" && ns.any isCollNameEntry
  | _ => false

/-- Whether an attribute is a `model` list containing the bare word
`skip_serde_checks`. -/
def attrHasSkip : Option Meta → Bool
  | some (Meta.list i ns) => i == "model" && ns.any isSkipEntry
  | _ => false

/-- Whether an `Except` is a success. -/
def exceptOk {ε α : Type} : Except ε α → Bool
  | Except.ok _ => true
  | Except.error _ => false

instance exceptDecidableEq {ε α : Type} [DecidableEq ε] [DecidableEq α] :
    DecidableEq (Except ε α) := fun a b =>
  match a, b with
  | Except.ok x, Except.ok y =>
    if h : x = y then isTrue (by rw [h])
    else isFalse (by intro hc; injection hc; exact h (by assumption))
  | Except.error x, Except.error y =>
    if h : x = y then isTrue (by rw [h])
    else isFalse (by intro hc; injection hc; exact h (by assumption))
  | Except.ok x, Except.error y => isFalse (fun hc => Except.noConfusion hc)
  | Except.error x, Except.ok y => isFalse (fun hc => Except.noConfusion hc)

/-! ### Generic lemmas about `List.foldlM` over `Except` -/

theorem except_bind_ok {ε α β : Type} (a : α) (g : α → Except ε β) :
    (Except.ok a >>= g) = g a := rfl

theorem except_bind_error {ε α β : Type} (e : ε) (g : α → Except ε β) :
    ((Except.error e : Except ε α) >>= g) = Except.error e := rfl

theorem foldlM_ok_append {ε σ α : Type} (f : σ → α → Except ε σ) (l1 l2 : List α)
    (i d : σ) (h : (l1 ++ l2).foldlM f i = Except.ok d) :
    ∃ m, l1.foldlM f i = Except.ok m ∧ l2.foldlM f m = Except.ok d := by
  induction l1 generalizing i with
  | nil => exact ⟨i, rfl, h⟩
  | cons a l ih =>
    rw [List.cons_append, List.foldlM_cons] at h
    cases hfa : f i a with
    | error e => rw [hfa, except_bind_error] at h; exact Except.noConfusion h
    | ok s =>
      rw [hfa, except_bind_ok] at h
      obtain ⟨m, hm1, hm2⟩ := ih s h
      exact ⟨m, by rw [List.foldlM_cons, hfa, except_bind_ok]; exact hm1, hm2⟩

theorem foldlM_poison {ε σ α : Type} (f : σ → α → Except ε σ) (x : α)
    (hx : ∀ acc, ∃ e, f acc x = Except.error e)
    (l1 l2 : List α) (i d : σ) :
    (l1 ++ x :: l2).foldlM f i ≠ Except.ok d := by
  intro h
  obtain ⟨m, _, h2⟩ := foldlM_ok_append f l1 (x :: l2) i d h
  obtain ⟨e, he⟩ := hx m
  rw [List.foldlM_cons, he, except_bind_error] at h2
  exact Except.noConfusion h2

theorem foldlM_ok_preserve {ε σ β α : Type} (f : σ → α → Except ε σ) (g : σ → β)
    (p : α → Bool)
    (hf : ∀ acc a r, p a = false → f acc a = Except.ok r → g r = g acc)
    (l : List α) (hl : ∀ a ∈ l, p a = false) :
    ∀ i d, l.foldlM f i = Except.ok d → g d = g i := by
  induction l with
  | nil =>
    intro i d h
    obtain rfl : i = d := by simpa [pure, Except.pure] using h
    rfl
  | cons a l ih =>
    intro i d h
    rw [List.foldlM_cons] at h
    cases hfa : f i a with
    | error e => rw [hfa, except_bind_error] at h; exact Except.noConfusion h
    | ok s =>
      rw [hfa, except_bind_ok] at h
      have hstep := hf i a s (hl a (List.mem_cons_self a l)) hfa
      have hrest := ih (fun b hb => hl b (List.mem_cons_of_mem a hb)) s d h
      rw [hrest, hstep]

theorem foldlM_ok_indep {ε σ α : Type} (f : σ → α → Except ε σ)
    (hf : ∀ a acc r, f acc a = Except.ok r → ∀ acc', ∃ r', f acc' a = Except.ok r')
    (l : List α) :
    ∀ i d, l.foldlM f i = Except.ok d → ∀ i', ∃ d', l.foldlM f i' = Except.ok d' := by
  induction l with
  | nil => intro i d _ i'; exact ⟨i', rfl⟩
  | cons a l ih =>
    intro i d h i'
    rw [List.foldlM_cons] at h
    cases hfa : f i a with
    | error e => rw [hfa, except_bind_error] at h; exact Except.noConfusion h
    | ok s =>
      rw [hfa, except_bind_ok] at h
      obtain ⟨s', hs'⟩ := hf a i s hfa i'
      obtain ⟨d', hd'⟩ := ih s d h s'
      exact ⟨d', by rw [List.foldlM_cons, hs', except_bind_ok]; exact hd'⟩

theorem foldlM_ok_skipflag {ε α : Type}
    (f : MetaModelStructData → α → Except ε MetaModelStructData) (q : α → Bool)
    (hf : ∀ acc a r, f acc a = Except.ok r →
      r.skip_serde_checks = (acc.skip_serde_checks || q a)) (l : List α) :
    ∀ i d, l.foldlM f i = Except.ok d →
      d.skip_serde_checks = (i.skip_serde_checks || l.any q) := by
  induction l with
  | nil =>
    intro i d h
    obtain rfl : i = d := by simpa [pure, Except.pure] using h
    simp
  | cons a l ih =>
    intro i d h
    rw [List.foldlM_cons] at h
    cases hfa : f i a with
    | error e => rw [hfa, except_bind_error] at h; exact Except.noConfusion h
    | ok s =>
      rw [hfa, except_bind_ok] at h
      rw [ih s d h, hf i a s hfa, List.any_cons, Bool.or_assoc]

/-! ### Evaluation equations -/

theorem handle_nested_literal (acc : MetaModelStructData) (l : Lit) :
    handle_nested acc (NestedMeta.literal l) = Except.error ModelError.modelAttrForm := rfl

theorem handle_nested_list (acc : MetaModelStructData) (i : String) (ns : List NestedMeta) :
    handle_nested acc (NestedMeta.meta (Meta.list i ns)) =
      Except.error ModelError.modelStructAttrs := rfl

theorem handle_nested_word (acc : MetaModelStructData) (i : String) :
    handle_nested acc (NestedMeta.meta (Meta.word i)) = handle_ident_attr i acc := rfl

theorem handle_nested_kv (acc : MetaModelStructData) (i : String) (l : Lit) :
    handle_nested acc (NestedMeta.meta (Meta.nameValue i l)) = handle_kv_attr i l acc := rfl

theorem handle_ident_attr_eq (i : String) (acc : MetaModelStructData) :
    handle_ident_attr i acc =
      if i = "skip_serde_checks" then
        Except.ok { acc with skip_serde_checks := true }
      else Except.error (ModelError.unrecognizedStructAttr i) := rfl

theorem handle_kv_attr_str (i val : String) (acc : MetaModelStructData) :
    handle_kv_attr i (Lit.str val) acc =
      if i = "collection_name" then
        (if val.length < 1 then Except.error ModelError.zeroLengthCollectionName
         else Except.ok { acc with collection_name := val })
      else Except.error (ModelError.unrecognizedStructAttr i) := rfl

theorem handle_kv_attr_nonstr (i : String) (l : Lit) (acc : MetaModelStructData)
    (hl : l.isStrLit = false) :
    handle_kv_attr i l acc = Except.error ModelError.onlyStringLiterals := by
  cases l with
  | str val => simp [Lit.isStrLit] at hl
  | int v => rfl
  | boolean v => rfl
  | other => rfl

theorem unpack_model_attr_list (i : String) (ns : List NestedMeta)
    (acc : MetaModelStructData) :
    unpack_model_attr (Meta.list i ns) acc = ns.foldlM handle_nested acc := rfl

theorem fold_step_none (acc : MetaModelStructData) :
    fold_step acc none = Except.ok acc := rfl

theorem fold_step_some (m : Meta) (acc : MetaModelStructData) :
    fold_step acc (some m) =
      if m.name = "model" then unpack_model_attr m acc else Except.ok acc := rfl

/-! ### Behaviour of a single entry -/

theorem handle_nested_preserve_cn (acc : MetaModelStructData) (nm : NestedMeta)
    (r : MetaModelStructData) (hnm : isCollNameEntry nm = false)
    (h : handle_nested acc nm = Except.ok r) :
    r.collection_name = acc.collection_name := by
  cases nm with
  | literal l => rw [handle_nested_literal] at h; exact Except.noConfusion h
  | meta m =>
    cases m with
    | list i ns => rw [handle_nested_list] at h; exact Except.noConfusion h
    | word i =>
      rw [handle_nested_word, handle_ident_attr_eq] at h
      split at h
      · injection h with h; subst h; rfl
      · exact Except.noConfusion h
    | nameValue i l =>
      simp only [isCollNameEntry, beq_eq_false_iff_ne, ne_eq] at hnm
      cases l with
      | str val =>
        rw [handle_nested_kv, handle_kv_attr_str, if_neg hnm] at h
        exact Except.noConfusion h
      | int v =>
        rw [handle_nested_kv, handle_kv_attr_nonstr i (Lit.int v) acc rfl] at h
        exact Except.noConfusion h
      | boolean v =>
        rw [handle_nested_kv, handle_kv_attr_nonstr i (Lit.boolean v) acc rfl] at h
        exact Except.noConfusion h
      | other =>
        rw [handle_nested_kv, handle_kv_attr_nonstr i Lit.other acc rfl] at h
        exact Except.noConfusion h

theorem handle_nested_ok_indep (nm : NestedMeta) (acc r : MetaModelStructData)
    (h : handle_nested acc nm = Except.ok r) (acc' : MetaModelStructData) :
    ∃ r', handle_nested acc' nm = Except.ok r' := by
  cases nm with
  | literal l => rw [handle_nested_literal] at h; exact Except.noConfusion h
  | meta m =>
    cases m with
    | list i ns => rw [handle_nested_list] at h; exact Except.noConfusion h
    | word i =>
      rw [handle_nested_word, handle_ident_attr_eq] at h ⊢
      split at h
      · rw [if_pos (by assumption)]; exact ⟨_, rfl⟩
      · exact Except.noConfusion h
    | nameValue i l =>
      cases l with
      | str val =>
        rw [handle_nested_kv, handle_kv_attr_str] at h ⊢
        split at h
        · split at h
          · exact Except.noConfusion h
          · rw [if_pos (by assumption), if_neg (by assumption)]
            exact ⟨_, rfl⟩
        · exact Except.noConfusion h
      | int v =>
        rw [handle_nested_kv, handle_kv_attr_nonstr i (Lit.int v) acc rfl] at h
        exact Except.noConfusion h
      | boolean v =>
        rw [handle_nested_kv, handle_kv_attr_nonstr i (Lit.boolean v) acc rfl] at h
        exact Except.noConfusion h
      | other =>
        rw [handle_nested_kv, handle_kv_attr_nonstr i Lit.other acc rfl] at h
        exact Except.noConfusion h

theorem handle_nested_skip (acc : MetaModelStructData) (nm : NestedMeta)
    (r : MetaModelStructData) (h : handle_nested acc nm = Except.ok r) :
    r.skip_serde_checks = (acc.skip_serde_checks || isSkipEntry nm) := by
  cases nm with
  | literal l => rw [handle_nested_literal] at h; exact Except.noConfusion h
  | meta m =>
    cases m with
    | list i ns => rw [handle_nested_list] at h; exact Except.noConfusion h
    | word i =>
      rw [handle_nested_word, handle_ident_attr_eq] at h
      split at h
      · injection h with h; subst h
        have : i = "skip_serde_checks" := by assumption
        simp [isSkipEntry, this]
      · exact Except.noConfusion h
    | nameValue i l =>
      cases l with
      | str val =>
        rw [handle_nested_kv, handle_kv_attr_str] at h
        split at h
        · split at h
          · exact Except.noConfusion h
          · injection h with h; subst h; simp [isSkipEntry]
        · exact Except.noConfusion h
      | int v =>
        rw [handle_nested_kv, handle_kv_attr_nonstr i (Lit.int v) acc rfl] at h
        exact Except.noConfusion h
      | boolean v =>
        rw [handle_nested_kv, handle_kv_attr_nonstr i (Lit.boolean v) acc rfl] at h
        exact Except.noConfusion h
      | other =>
        rw [handle_nested_kv, handle_kv_attr_nonstr i Lit.other acc rfl] at h
        exact Except.noConfusion h

/-! ### Behaviour of a single attribute fold step -/

theorem unpack_word_err (i : String) (acc : MetaModelStructData) :
    unpack_model_attr (Meta.word i) acc = Except.error ModelError.modelAttrForm := rfl

theorem unpack_nv_err (i : String) (l : Lit) (acc : MetaModelStructData) :
    unpack_model_attr (Meta.nameValue i l) acc =
      Except.error ModelError.modelAttrForm := rfl

theorem fold_step_preserve_cn (acc : MetaModelStructData) (attr : Option Meta)
    (r : MetaModelStructData) (hattr : attrSetsCollName attr = false)
    (h : fold_step acc attr = Except.ok r) :
    r.collection_name = acc.collection_name := by
  cases attr with
  | none => injection h with h; subst h; rfl
  | some m =>
    rw [fold_step_some] at h
    cases m with
    | word i =>
      split at h
      · rw [unpack_word_err] at h; exact Except.noConfusion h
      · injection h with h; subst h; rfl
    | nameValue i l =>
      split at h
      · rw [unpack_nv_err] at h; exact Except.noConfusion h
      · injection h with h; subst h; rfl
    | list i ns =>
      split at h
      · have hi : i = "model" := by
          simpa [Meta.name] using (by assumption : (Meta.list i ns).name = "model")
        subst hi
        rw [unpack_model_attr_list] at h
        simp only [attrSetsCollName, beq_self_eq_true, Bool.true_and] at hattr
        rw [List.any_eq_false] at hattr
        exact foldlM_ok_preserve handle_nested (fun d => d.collection_name)
          isCollNameEntry handle_nested_preserve_cn ns
          (fun a ha => Bool.eq_false_iff.mpr (hattr a ha)) acc r h
      · injection h with h; subst h; rfl

theorem fold_step_ok_indep (attr : Option Meta) (acc r : MetaModelStructData)
    (h : fold_step acc attr = Except.ok r) (acc' : MetaModelStructData) :
    ∃ r', fold_step acc' attr = Except.ok r' := by
  cases attr with
  | none => exact ⟨acc', rfl⟩
  | some m =>
    rw [fold_step_some] at h ⊢
    cases m with
    | word i =>
      split at h
      · rw [unpack_word_err] at h; exact Except.noConfusion h
      · rw [if_neg (by assumption)]; exact ⟨acc', rfl⟩
    | nameValue i l =>
      split at h
      · rw [unpack_nv_err] at h; exact Except.noConfusion h
      · rw [if_neg (by assumption)]; exact ⟨acc', rfl⟩
    | list i ns =>
      split at h
      · rw [if_pos (by assumption)]
        rw [unpack_model_attr_list] at h ⊢
        exact foldlM_ok_indep handle_nested handle_nested_ok_indep ns acc r h acc'
      · rw [if_neg (by assumption)]; exact ⟨acc', rfl⟩

theorem fold_step_skip (acc : MetaModelStructData) (attr : Option Meta)
    (r : MetaModelStructData) (h : fold_step acc attr = Except.ok r) :
    r.skip_serde_checks = (acc.skip_serde_checks || attrHasSkip attr) := by
  cases attr with
  | none => injection h with h; subst h; simp [attrHasSkip]
  | some m =>
    rw [fold_step_some] at h
    cases m with
    | word i =>
      split at h
      · rw [unpack_word_err] at h; exact Except.noConfusion h
      · injection h with h; subst h; simp [attrHasSkip]
    | nameValue i l =>
      split at h
      · rw [unpack_nv_err] at h; exact Except.noConfusion h
      · injection h with h; subst h; simp [attrHasSkip]
    | list i ns =>
      split at h
      · have hi : i = "model" := by
          simpa [Meta.name] using (by assumption : (Meta.list i ns).name = "model")
        subst hi
        rw [unpack_model_attr_list] at h
        rw [foldlM_ok_skipflag handle_nested isSkipEntry handle_nested_skip ns acc r h]
        simp [attrHasSkip]
      · have hi : ¬ i = "model" := by
          intro hcon
          exact (by assumption : ¬ (Meta.list i ns).name = "model") (by simpa [Meta.name] using hcon)
        injection h with h; subst h
        simp [attrHasSkip, hi]

/-! ### The full pipeline -/

theorem new_ok_fold (attrs : List (Option Meta)) (tid : String)
    (d : MetaModelStructData) (h : MetaModelStructData.new attrs tid = Except.ok d) :
    ∃ d0, attrs.foldlM fold_step MetaModelStructData.mkDefault = Except.ok d0 ∧
      ((d0.collection_name.length = 0 ∧
          d = { d0 with collection_name := to_plural (to_table_case tid) }) ∨
       (d0.collection_name.length ≠ 0 ∧ d = d0)) := by
  unfold MetaModelStructData.new at h
  cases hfold : attrs.foldlM fold_step MetaModelStructData.mkDefault with
  | error e => rw [hfold] at h; exact Except.noConfusion h
  | ok d0 =>
    rw [hfold] at h
    have h2 : (if d0.collection_name.length = 0 then
        Except.ok { d0 with collection_name := to_plural (to_table_case tid) }
      else Except.ok d0) = Except.ok d := h
    by_cases hc : d0.collection_name.length = 0
    · rw [if_pos hc] at h2
      exact ⟨d0, rfl, Or.inl ⟨hc, by injection h2 with h2; exact h2.symm⟩⟩
    · rw [if_neg hc] at h2
      exact ⟨d0, rfl, Or.inr ⟨hc, by injection h2 with h2; exact h2.symm⟩⟩

theorem new_of_fold_ok (attrs : List (Option Meta)) (tid : String)
    (d0 : MetaModelStructData)
    (hfold : attrs.foldlM fold_step MetaModelStructData.mkDefault = Except.ok d0) :
    MetaModelStructData.new attrs tid =
      (if d0.collection_name.length = 0 then
        Except.ok { d0 with collection_name := to_plural (to_table_case tid) }
      else Except.ok d0) := by
  unfold MetaModelStructData.new
  rw [hfold]

theorem new_of_fold_err (attrs : List (Option Meta)) (tid : String) (e : ModelError)
    (hfold : attrs.foldlM fold_step MetaModelStructData.mkDefault = Except.error e) :
    MetaModelStructData.new attrs tid = Except.error e := by
  unfold MetaModelStructData.new
  rw [hfold]

theorem new_not_ok (attrs : List (Option Meta)) (tid : String)
    (h : ∀ d0, attrs.foldlM fold_step MetaModelStructData.mkDefault ≠ Except.ok d0) :
    exceptOk (MetaModelStructData.new attrs tid) = false := by
  unfold MetaModelStructData.new
  cases hfold : attrs.foldlM fold_step MetaModelStructData.mkDefault with
  | error e => rfl
  | ok d0 => exact absurd hfold (h d0)

/-! ### String facts -/

theorem string_length_ne_zero (s : String) (h : s ≠ "") : ¬ s.length = 0 := by
  intro hlen
  cases s with
  | mk d =>
    cases d with
    | nil => exact h rfl
    | cons c cs => simp [String.length] at hlen

theorem string_not_lt_one (s : String) (h : s ≠ "") : ¬ s.length < 1 := by
  intro hlt
  exact string_length_ne_zero s h (Nat.lt_one_iff.mp hlt)

theorem string_ne_of_length_ne_zero (s : String) (h : ¬ s.length = 0) : s ≠ "" := by
  intro heq
  subst heq
  exact h rfl

theorem ttc_step_length (acc : List Char) (c : Char) :
    acc.length + 1 ≤ (ttc_step acc c).length := by
  unfold ttc_step
  split
  · split <;> simp
  · simp

theorem foldl_ttc_length (l : List Char) (acc : List Char) :
    acc.length ≤ (l.foldl ttc_step acc).length := by
  induction l generalizing acc with
  | nil => exact Nat.le_refl _
  | cons c cs ih =>
    rw [List.foldl_cons]
    have h1 := ttc_step_length acc c
    have h2 := ih (ttc_step acc c)
    omega

theorem to_table_case_ne_empty (s : String) (h : s ≠ "") : to_table_case s ≠ "" := by
  cases s with
  | mk d =>
    cases d with
    | nil => exact absurd rfl h
    | cons c cs =>
      intro heq
      have hdata : (c :: cs).foldl ttc_step [] = [] := congrArg String.data heq
      have h1 := ttc_step_length [] c
      have h2 := foldl_ttc_length cs (ttc_step [] c)
      rw [List.foldl_cons] at hdata
      rw [hdata] at h2
      simp only [List.length_nil] at h1 h2
      omega

theorem to_plural_ne_empty (s : String) (h : s ≠ "") : to_plural s ≠ "" := by
  unfold to_plural
  split
  · intro heq
    have hlen := congrArg String.length heq
    rw [String.length_append] at hlen
    have h3 : ("ies" : String).length = 3 := rfl
    rw [h3] at hlen
    simp at hlen
  · split
    · exact h
    · split
      · intro heq
        have hlen := congrArg String.length heq
        rw [String.length_append] at hlen
        have h2 : ("es" : String).length = 2 := rfl
        rw [h2] at hlen
        simp at hlen
      · intro heq
        have hlen := congrArg String.length heq
        rw [String.length_append] at hlen
        have h1 : ("s" : String).length = 1 := rfl
        rw [h1] at hlen
        simp at hlen

/-! ### Composition and poison lemmas -/

theorem foldlM_singleton {ε σ α : Type} (f : σ → α → Except ε σ) (x : α) (i : σ) :
    [x].foldlM f i = f i x := by
  rw [List.foldlM_cons]
  cases hfx : f i x with
  | error e => rw [except_bind_error]
  | ok s => rw [except_bind_ok]; rfl

theorem foldlM_compose {ε σ α : Type} (f : σ → α → Except ε σ) (l1 l2 : List α)
    (i m d : σ) (h1 : l1.foldlM f i = Except.ok m) (h2 : l2.foldlM f m = Except.ok d) :
    (l1 ++ l2).foldlM f i = Except.ok d := by
  induction l1 generalizing i with
  | nil =>
    obtain rfl : i = m := by simpa [pure, Except.pure] using h1
    simpa using h2
  | cons a l ih =>
    rw [List.foldlM_cons] at h1
    rw [List.cons_append, List.foldlM_cons]
    cases hfa : f i a with
    | error e => rw [hfa, except_bind_error] at h1; exact Except.noConfusion h1
    | ok s =>
      rw [hfa, except_bind_ok] at h1
      rw [except_bind_ok]
      exact ih s h1

/-- A `model`-list attribute containing an entry on which `handle_nested`
always errors makes the whole pipeline abort, wherever it appears. -/
theorem new_not_ok_of_poison_entry (pre post : List (Option Meta))
    (epre epost : List NestedMeta) (x : NestedMeta)
    (hx : ∀ acc, ∃ e, handle_nested acc x = Except.error e) (tid : String) :
    exceptOk (MetaModelStructData.new
      (pre ++ (some (Meta.list "model" (epre ++ x :: epost))) :: post) tid) = false := by
  apply new_not_ok
  intro d0
  apply foldlM_poison fold_step (some (Meta.list "model" (epre ++ x :: epost)))
  intro acc
  rw [fold_step_some,
    if_pos (show (Meta.list "model" (epre ++ x :: epost)).name = "model" from rfl),
    unpack_model_attr_list]
  cases hres : (epre ++ x :: epost).foldlM handle_nested acc with
  | error e => exact ⟨e, rfl⟩
  | ok r => exact absurd hres (foldlM_poison handle_nested x hx epre epost acc r)

/-- Handling an explicit non-empty `collection_name` entry sets the field. -/
theorem fold_cn_entry (v : String) (hv : v ≠ "") (acc : MetaModelStructData) :
    handle_nested acc (NestedMeta.meta (Meta.nameValue "collection_name" (Lit.str v))) =
      Except.ok { acc with collection_name := v } := by
  rw [handle_nested_kv, handle_kv_attr_str, if_pos rfl, if_neg (string_not_lt_one v hv)]

/-- The result of a successful run, projected to the collection name. -/
def newCollName (attrs : List (Option Meta)) (tid : String) : Option String :=
  match MetaModelStructData.new attrs tid with
  | Except.ok d => some d.collection_name
  | Except.error _ => none

/-! ### Claims -/

/-- C4: an annotation set containing a `model` annotation with the entry
`collection_name = ""` aborts with the zero-length constraint-violation
error at that entry, and the pipeline never returns a configuration. -/
theorem c4_empty_collection_name_aborts (pre post : List (Option Meta))
    (epre epost : List NestedMeta) (acc : MetaModelStructData) (tid : String) :
    handle_kv_attr "collection_name" (Lit.str "") acc =
      Except.error ModelError.zeroLengthCollectionName
    ∧ exceptOk (MetaModelStructData.new
        (pre ++ (some (Meta.list "model"
          (epre ++ NestedMeta.meta (Meta.nameValue "collection_name" (Lit.str "")) :: epost)))
          :: post) tid) = false := by
  constructor
  · rw [handle_kv_attr_str, if_pos rfl, if_pos (by decide : ("" : String).length < 1)]
  · exact new_not_ok_of_poison_entry pre post epre epost _
      (fun a => ⟨ModelError.zeroLengthCollectionName,
        by rw [handle_nested_kv, handle_kv_attr_str, if_pos rfl,
          if_pos (by decide : ("" : String).length < 1)]⟩) tid

/-- C5: an unrecognized bare word or name-value key inside a `model`
annotation aborts with the unrecognized-option error carrying that
identifier, and the pipeline never returns a configuration. -/
theorem c5_unrecognized_option_aborts (w k v tid : String)
    (hw : w ≠ "skip_serde_checks") (hk : k ≠ "collection_name")
    (acc acc2 : MetaModelStructData)
    (pre post : List (Option Meta)) (epre epost : List NestedMeta) :
    handle_ident_attr w acc = Except.error (ModelError.unrecognizedStructAttr w)
    ∧ handle_kv_attr k (Lit.str v) acc2 = Except.error (ModelError.unrecognizedStructAttr k)
    ∧ exceptOk (MetaModelStructData.new
        (pre ++ (some (Meta.list "model" (epre ++ NestedMeta.meta (Meta.word w) :: epost)))
          :: post) tid) = false := by
  refine ⟨?_, ?_, ?_⟩
  · rw [handle_ident_attr_eq, if_neg hw]
  · rw [handle_kv_attr_str, if_neg hk]
  · exact new_not_ok_of_poison_entry pre post epre epost _
      (fun a => ⟨ModelError.unrecognizedStructAttr w,
        by rw [handle_nested_word, handle_ident_attr_eq, if_neg hw]⟩) tid

/-- Witness for C5 at the unknown bare word `foo` and unknown key `bar`. -/
theorem c5_witness :
    handle_ident_attr "foo" MetaModelStructData.mkDefault =
      Except.error (ModelError.unrecognizedStructAttr "foo")
    ∧ handle_kv_attr "bar" (Lit.str "x") MetaModelStructData.mkDefault =
      Except.error (ModelError.unrecognizedStructAttr "bar")
    ∧ exceptOk (MetaModelStructData.new
        ([] ++ (some (Meta.list "model" ([] ++ NestedMeta.meta (Meta.word "foo") :: [])))
          :: []) "T") = false :=
  c5_unrecognized_option_aborts "foo" "bar" "x" "T" (by decide) (by decide)
    MetaModelStructData.mkDefault MetaModelStructData.mkDefault [] [] [] []

/-- C6: a name-value entry whose literal is not a string literal aborts
with the only-string-literals error, and the pipeline never returns a
configuration. -/
theorem c6_nonstring_literal_aborts (k tid : String) (l : Lit)
    (hl : l.isStrLit = false) (acc : MetaModelStructData)
    (pre post : List (Option Meta)) (epre epost : List NestedMeta) :
    handle_kv_attr k l acc = Except.error ModelError.onlyStringLiterals
    ∧ exceptOk (MetaModelStructData.new
        (pre ++ (some (Meta.list "model"
          (epre ++ NestedMeta.meta (Meta.nameValue k l) :: epost))) :: post) tid) = false := by
  constructor
  · exact handle_kv_attr_nonstr k l acc hl
  · exact new_not_ok_of_poison_entry pre post epre epost _
      (fun a => ⟨ModelError.onlyStringLiterals,
        by rw [handle_nested_kv]; exact handle_kv_attr_nonstr k l a hl⟩) tid

/-- Witness for C6 at `collection_name = 42`. -/
theorem c6_witness :
    handle_kv_attr "collection_name" (Lit.int 42) MetaModelStructData.mkDefault =
      Except.error ModelError.onlyStringLiterals
    ∧ exceptOk (MetaModelStructData.new
        ([] ++ (some (Meta.list "model"
          ([] ++ NestedMeta.meta (Meta.nameValue "collection_name" (Lit.int 42)) :: [])))
          :: []) "T") = false :=
  c6_nonstring_literal_aborts "collection_name" "T" (Lit.int 42) rfl
    MetaModelStructData.mkDefault [] [] [] []

/-- C7: a `model` annotation that is not list-shaped raises the
`MODEL_ATTR_FORM` structural error; a bare-literal entry raises
`MODEL_ATTR_FORM` and a nested-list entry raises `MODEL_STRUCT_ATTRS`; in
each case the pipeline never returns a configuration. -/
theorem c7_structural_errors (i tid : String) (l : Lit) (ns : List NestedMeta)
    (acc : MetaModelStructData) (pre post : List (Option Meta))
    (epre epost : List NestedMeta) :
    unpack_model_attr (Meta.word i) acc = Except.error ModelError.modelAttrForm
    ∧ unpack_model_attr (Meta.nameValue i l) acc = Except.error ModelError.modelAttrForm
    ∧ handle_nested acc (NestedMeta.literal l) = Except.error ModelError.modelAttrForm
    ∧ handle_nested acc (NestedMeta.meta (Meta.list i ns)) =
        Except.error ModelError.modelStructAttrs
    ∧ exceptOk (MetaModelStructData.new
        (pre ++ (some (Meta.word "model")) :: post) tid) = false
    ∧ exceptOk (MetaModelStructData.new
        (pre ++ (some (Meta.list "model" (epre ++ NestedMeta.literal l :: epost))) :: post)
        tid) = false := by
  refine ⟨rfl, rfl, rfl, rfl, ?_, ?_⟩
  · apply new_not_ok
    intro d0
    exact foldlM_poison fold_step (some (Meta.word "model"))
      (fun a => ⟨ModelError.modelAttrForm,
        by rw [fold_step_some, if_pos (show (Meta.word "model").name = "model" from rfl),
          unpack_word_err]⟩)
      pre post MetaModelStructData.mkDefault d0
  · exact new_not_ok_of_poison_entry pre post epre epost _
      (fun a => ⟨ModelError.modelAttrForm, handle_nested_literal a l⟩) tid

/-- C10: for a name-value entry, the literal's kind is checked before the
key is matched against the vocabulary: a non-string literal under an
unrecognized key yields the only-string-literals error, not the
unrecognized-option error naming the key. -/
theorem c10_literal_kind_checked_first (k : String) (_hk : k ≠ "collection_name")
    (l : Lit) (hl : l.isStrLit = false) (acc : MetaModelStructData) :
    handle_kv_attr k l acc = Except.error ModelError.onlyStringLiterals
    ∧ handle_kv_attr k l acc ≠ Except.error (ModelError.unrecognizedStructAttr k) := by
  have h1 := handle_kv_attr_nonstr k l acc hl
  refine ⟨h1, ?_⟩
  rw [h1]
  intro hcon
  injection hcon with hcon
  exact ModelError.noConfusion hcon

/-- Witness for C10 at `bar = 42`. -/
theorem c10_witness :
    handle_kv_attr "bar" (Lit.int 42) MetaModelStructData.mkDefault =
      Except.error ModelError.onlyStringLiterals
    ∧ handle_kv_attr "bar" (Lit.int 42) MetaModelStructData.mkDefault ≠
      Except.error (ModelError.unrecognizedStructAttr "bar") :=
  c10_literal_kind_checked_first "bar" (by decide) (Lit.int 42) rfl
    MetaModelStructData.mkDefault

/-- C8: on success, `skip_serde_checks` is true exactly when some `model`
annotation contains the bare word `skip_serde_checks`; the handler is
idempotent and declaring the word twice yields the same configuration as
declaring it once. -/
theorem c8_skip_serde_checks_semantics (attrs : List (Option Meta)) (tid : String)
    (d acc : MetaModelStructData)
    (h : MetaModelStructData.new attrs tid = Except.ok d) :
    d.skip_serde_checks = attrs.any attrHasSkip
    ∧ (handle_ident_attr "skip_serde_checks" acc).bind
        (handle_ident_attr "skip_serde_checks") = handle_ident_attr "skip_serde_checks" acc
    ∧ MetaModelStructData.new
        [some (Meta.list "model" [NestedMeta.meta (Meta.word "skip_serde_checks"),
          NestedMeta.meta (Meta.word "skip_serde_checks")])] tid =
      MetaModelStructData.new
        [some (Meta.list "model" [NestedMeta.meta (Meta.word "skip_serde_checks")])] tid := by
  refine ⟨?_, rfl, rfl⟩
  obtain ⟨d0, hfold, hcase⟩ := new_ok_fold attrs tid d h
  have hskip := foldlM_ok_skipflag fold_step attrHasSkip fold_step_skip attrs
    MetaModelStructData.mkDefault d0 hfold
  have hd : d.skip_serde_checks = d0.skip_serde_checks := by
    rcases hcase with ⟨_, rfl⟩ | ⟨_, rfl⟩ <;> rfl
  rw [hd, hskip]
  simp [MetaModelStructData.mkDefault]

/-- Witness for C8: a single `skip_serde_checks` word on type `User`. -/
theorem c8_witness :
    MetaModelStructData.new
      [some (Meta.list "model" [NestedMeta.meta (Meta.word "skip_serde_checks")])] "User" =
      Except.ok ⟨"users", true⟩
    ∧ ((⟨"users", true⟩ : MetaModelStructData).skip_serde_checks =
        [some (Meta.list "model" [NestedMeta.meta (Meta.word "skip_serde_checks")])].any attrHasSkip
      ∧ (handle_ident_attr "skip_serde_checks" MetaModelStructData.mkDefault).bind
          (handle_ident_attr "skip_serde_checks") =
          handle_ident_attr "skip_serde_checks" MetaModelStructData.mkDefault
      ∧ MetaModelStructData.new
          [some (Meta.list "model" [NestedMeta.meta (Meta.word "skip_serde_checks"),
            NestedMeta.meta (Meta.word "skip_serde_checks")])] "User" =
        MetaModelStructData.new
          [some (Meta.list "model" [NestedMeta.meta (Meta.word "skip_serde_checks")])] "User") :=
  ⟨by decide, c8_skip_serde_checks_semantics
    [some (Meta.list "model" [NestedMeta.meta (Meta.word "skip_serde_checks")])] "User"
    ⟨"users", true⟩ MetaModelStructData.mkDefault (by decide)⟩

/-- C9: two `model` annotations are both folded, in order, with no
merge-conflict error; when both set `collection_name`, the later value
wins, and options set by distinct annotations are all present. -/
theorem c9_later_annotation_wins (X Y tid : String) (hX : X ≠ "") (hY : Y ≠ "") :
    MetaModelStructData.new
      [some (Meta.list "model" [NestedMeta.meta (Meta.nameValue "collection_name" (Lit.str X))]),
       some (Meta.list "model" [NestedMeta.meta (Meta.nameValue "collection_name" (Lit.str Y))])]
      tid = Except.ok ⟨Y, false⟩
    ∧ MetaModelStructData.new
      [some (Meta.list "model" [NestedMeta.meta (Meta.word "skip_serde_checks")]),
       some (Meta.list "model" [NestedMeta.meta (Meta.nameValue "collection_name" (Lit.str Y))])]
      tid = Except.ok ⟨Y, true⟩ := by
  constructor
  · have hA : fold_step MetaModelStructData.mkDefault
        (some (Meta.list "model"
          [NestedMeta.meta (Meta.nameValue "collection_name" (Lit.str X))])) =
        Except.ok ⟨X, false⟩ := by
      rw [fold_step_some,
        if_pos (show (Meta.list "model"
          [NestedMeta.meta (Meta.nameValue "collection_name" (Lit.str X))]).name = "model"
          from rfl),
        unpack_model_attr_list, foldlM_singleton, fold_cn_entry X hX]
      rfl
    have hB : fold_step (⟨X, false⟩ : MetaModelStructData)
        (some (Meta.list "model"
          [NestedMeta.meta (Meta.nameValue "collection_name" (Lit.str Y))])) =
        Except.ok ⟨Y, false⟩ := by
      rw [fold_step_some,
        if_pos (show (Meta.list "model"
          [NestedMeta.meta (Meta.nameValue "collection_name" (Lit.str Y))]).name = "model"
          from rfl),
        unpack_model_attr_list, foldlM_singleton, fold_cn_entry Y hY]
    have hfold : [some (Meta.list "model"
        [NestedMeta.meta (Meta.nameValue "collection_name" (Lit.str X))]),
        some (Meta.list "model"
          [NestedMeta.meta (Meta.nameValue "collection_name" (Lit.str Y))])].foldlM
        fold_step MetaModelStructData.mkDefault = Except.ok ⟨Y, false⟩ := by
      rw [List.foldlM_cons, hA, except_bind_ok, List.foldlM_cons, hB, except_bind_ok]
      rfl
    rw [new_of_fold_ok _ tid _ hfold]
    exact if_neg (string_length_ne_zero Y hY)
  · have hA : fold_step MetaModelStructData.mkDefault
        (some (Meta.list "model" [NestedMeta.meta (Meta.word "skip_serde_checks")])) =
        Except.ok ⟨"", true⟩ := rfl
    have hB : fold_step (⟨"", true⟩ : MetaModelStructData)
        (some (Meta.list "model"
          [NestedMeta.meta (Meta.nameValue "collection_name" (Lit.str Y))])) =
        Except.ok ⟨Y, true⟩ := by
      rw [fold_step_some,
        if_pos (show (Meta.list "model"
          [NestedMeta.meta (Meta.nameValue "collection_name" (Lit.str Y))]).name = "model"
          from rfl),
        unpack_model_attr_list, foldlM_singleton, fold_cn_entry Y hY]
    have hfold : [some (Meta.list "model" [NestedMeta.meta (Meta.word "skip_serde_checks")]),
        some (Meta.list "model"
          [NestedMeta.meta (Meta.nameValue "collection_name" (Lit.str Y))])].foldlM
        fold_step MetaModelStructData.mkDefault = Except.ok ⟨Y, true⟩ := by
      rw [List.foldlM_cons, hA, except_bind_ok, List.foldlM_cons, hB, except_bind_ok]
      rfl
    rw [new_of_fold_ok _ tid _ hfold]
    exact if_neg (string_length_ne_zero Y hY)

/-- Witness for C9 with `X = "a"`, `Y = "b"`. -/
theorem c9_witness :
    MetaModelStructData.new
      [some (Meta.list "model" [NestedMeta.meta (Meta.nameValue "collection_name" (Lit.str "a"))]),
       some (Meta.list "model" [NestedMeta.meta (Meta.nameValue "collection_name" (Lit.str "b"))])]
      "T" = Except.ok ⟨"b", false⟩
    ∧ MetaModelStructData.new
      [some (Meta.list "model" [NestedMeta.meta (Meta.word "skip_serde_checks")]),
       some (Meta.list "model" [NestedMeta.meta (Meta.nameValue "collection_name" (Lit.str "b"))])]
      "T" = Except.ok ⟨"b", true⟩ :=
  c9_later_annotation_wins "a" "b" "T" (by decide) (by decide)

/-- C2: when no annotation supplies `collection_name`, a successful run
derives it as the pluralized table-case form of the type's own name. -/
theorem c2_default_collection_name (attrs : List (Option Meta)) (tid : String)
    (d : MetaModelStructData) (hno : ∀ a ∈ attrs, attrSetsCollName a = false)
    (h : MetaModelStructData.new attrs tid = Except.ok d) :
    d.collection_name = to_plural (to_table_case tid) := by
  obtain ⟨d0, hfold, hcase⟩ := new_ok_fold attrs tid d h
  have hpres : d0.collection_name = "" := foldlM_ok_preserve fold_step
    (fun x => x.collection_name) attrSetsCollName
    fold_step_preserve_cn attrs hno MetaModelStructData.mkDefault d0 hfold
  rcases hcase with ⟨_, rfl⟩ | ⟨hne, rfl⟩
  · rfl
  · exact absurd (by rw [hpres]; rfl) hne

/-- Witness for C2: `UserProfile` with no annotations yields `user_profiles`. -/
theorem c2_witness :
    MetaModelStructData.new [] "UserProfile" = Except.ok ⟨"user_profiles", false⟩
    ∧ (⟨"user_profiles", false⟩ : MetaModelStructData).collection_name =
        to_plural (to_table_case "UserProfile") :=
  ⟨by decide, c2_default_collection_name [] "UserProfile" ⟨"user_profiles", false⟩
    (by simp) (by decide)⟩

/-- C3: whenever the pipeline returns a configuration (for a non-empty type
name, as Rust identifiers are), its `collection_name` is non-empty. -/
theorem c3_collection_name_nonempty (attrs : List (Option Meta)) (tid : String)
    (d : MetaModelStructData) (htid : tid ≠ "")
    (h : MetaModelStructData.new attrs tid = Except.ok d) :
    d.collection_name ≠ "" := by
  obtain ⟨d0, hfold, hcase⟩ := new_ok_fold attrs tid d h
  rcases hcase with ⟨_, rfl⟩ | ⟨hne, rfl⟩
  · exact to_plural_ne_empty _ (to_table_case_ne_empty tid htid)
  · exact string_ne_of_length_ne_zero _ hne

/-- Witness for C3 at type name `User` with no annotations. -/
theorem c3_witness :
    ("User" : String) ≠ ""
    ∧ MetaModelStructData.new [] "User" = Except.ok ⟨"users", false⟩
    ∧ (⟨"users", false⟩ : MetaModelStructData).collection_name ≠ "" :=
  ⟨by decide, by decide,
    c3_collection_name_nonempty [] "User" ⟨"users", false⟩ (by decide) (by decide)⟩

/-- C1: inserting a non-empty `collection_name = "X"` entry into an
otherwise-valid annotation set (none of whose later entries or annotations
set `collection_name`) makes processing succeed with exactly `X` as the
collection name, whatever the type's own name. -/
theorem c1_explicit_collection_name (pre post : List (Option Meta))
    (epre epost : List NestedMeta) (X tid : String) (hX : X ≠ "")
    (hepost : ∀ nm ∈ epost, isCollNameEntry nm = false)
    (hpost : ∀ a ∈ post, attrSetsCollName a = false)
    (hvalid : ∃ d0, MetaModelStructData.new
      (pre ++ (some (Meta.list "model" (epre ++ epost))) :: post) tid = Except.ok d0) :
    newCollName
      (pre ++ (some (Meta.list "model"
        (epre ++ NestedMeta.meta (Meta.nameValue "collection_name" (Lit.str X)) :: epost)))
        :: post) tid = some X := by
  obtain ⟨dv, hv⟩ := hvalid
  obtain ⟨dv0, hfold0, _⟩ := new_ok_fold _ _ _ hv
  obtain ⟨m1, hpre1, hrest⟩ := foldlM_ok_append fold_step pre _ _ _ hfold0
  rw [List.foldlM_cons] at hrest
  cases hA0 : fold_step m1 (some (Meta.list "model" (epre ++ epost))) with
  | error e => rw [hA0, except_bind_error] at hrest; exact Except.noConfusion hrest
  | ok m2 =>
    rw [hA0, except_bind_ok] at hrest
    rw [fold_step_some,
      if_pos (show (Meta.list "model" (epre ++ epost)).name = "model" from rfl),
      unpack_model_attr_list] at hA0
    obtain ⟨m3, hepre3, hepost3⟩ := foldlM_ok_append handle_nested epre epost m1 m2 hA0
    obtain ⟨m4, hm4⟩ := foldlM_ok_indep handle_nested handle_nested_ok_indep epost m3 m2
      hepost3 { m3 with collection_name := X }
    have hm4cn : m4.collection_name = X := foldlM_ok_preserve handle_nested
      (fun x => x.collection_name) isCollNameEntry
      handle_nested_preserve_cn epost hepost { m3 with collection_name := X } m4 hm4
    have hentries : (epre ++ NestedMeta.meta
        (Meta.nameValue "collection_name" (Lit.str X)) :: epost).foldlM
        handle_nested m1 = Except.ok m4 := by
      apply foldlM_compose handle_nested epre _ m1 m3 m4 hepre3
      rw [List.foldlM_cons, fold_cn_entry X hX, except_bind_ok]
      exact hm4
    have hA1 : fold_step m1 (some (Meta.list "model"
        (epre ++ NestedMeta.meta (Meta.nameValue "collection_name" (Lit.str X)) :: epost))) =
        Except.ok m4 := by
      rw [fold_step_some,
        if_pos (show (Meta.list "model"
          (epre ++ NestedMeta.meta (Meta.nameValue "collection_name" (Lit.str X)) :: epost)).name
          = "model" from rfl),
        unpack_model_attr_list]
      exact hentries
    obtain ⟨m5, hm5⟩ := foldlM_ok_indep fold_step fold_step_ok_indep post m2 dv0 hrest m4
    have hm5pres : m5.collection_name = m4.collection_name := foldlM_ok_preserve fold_step
      (fun x => x.collection_name) attrSetsCollName
      fold_step_preserve_cn post hpost m4 m5 hm5
    have hm5cn : m5.collection_name = X := hm5pres.trans hm4cn
    have hfold1 : (pre ++ (some (Meta.list "model"
        (epre ++ NestedMeta.meta (Meta.nameValue "collection_name" (Lit.str X)) :: epost)))
        :: post).foldlM fold_step MetaModelStructData.mkDefault = Except.ok m5 := by
      apply foldlM_compose fold_step pre _ _ m1 m5 hpre1
      rw [List.foldlM_cons, hA1, except_bind_ok]
      exact hm5
    unfold newCollName
    rw [new_of_fold_ok _ tid m5 hfold1]
    rw [if_neg (by rw [hm5cn]; exact string_length_ne_zero X hX)]
    exact congrArg Option.some hm5cn

/-- Witness for C1: `collection_name = "items"` on type `T`. -/
theorem c1_witness :
    MetaModelStructData.new ([] ++ (some (Meta.list "model" ([] ++ []))) :: []) "T" =
      Except.ok ⟨"ts", false⟩
    ∧ newCollName ([] ++ (some (Meta.list "model"
        ([] ++ NestedMeta.meta (Meta.nameValue "collection_name" (Lit.str "items")) :: [])))
        :: []) "T" = some "items" :=
  ⟨by decide, c1_explicit_collection_name [] [] [] [] "items" "T" (by decide)
    (by simp) (by simp) ⟨⟨"ts", false⟩, by decide⟩⟩

end Wither
